import Mathlib

/-!
Verification of the Databricks app-lifecycle core
(`databricks_tools_core/apps/apps.py` and
`databricks_mcp_server/tools/apps.py`).

The Python functions are shallowly embedded: byte strings become
`List Nat` (each entry one byte), Python `str` becomes `String`
(in this toolchain a `String` is a structure over `List Char`, so all
string operations are modelled by explicit `List Char` functions that
mirror the Python semantics), socket reads become pure consumption of a
finite byte list (`recv n` returns up to `n` of the remaining bytes and
the empty list once the stream is exhausted, exactly the contract of
`socket.recv` on an ended stream), and code that can raise returns
`Except`.
-/

/-! ## Python string primitives -/

/-- Whitespace characters removed by Python `str.strip()` (ASCII range). -/
def isPySpace (c : Char) : Bool :=
  c = ' ' || c = '\t' || c = '\n' || c = '\r' || c = '\x0b' || c = '\x0c'

/-- Remove trailing characters satisfying `isPySpace`. -/
def dropTrailL (l : List Char) : List Char :=
  (l.reverse.dropWhile isPySpace).reverse

/-- `str.strip()` on the character list. -/
def pyStripL (l : List Char) : List Char :=
  dropTrailL (l.dropWhile isPySpace)

/-- Python `str.strip()`. -/
def pyStrip (s : String) : String :=
  ⟨pyStripL s.data⟩

/-- Python `str.startswith` on character lists (first argument is the
candidate leading segment). -/
def prefixOfL : List Char → List Char → Bool
  | [], _ => true
  | _ :: _, [] => false
  | a :: n, b :: h => a == b && prefixOfL n h

/-- Python `needle in haystack` (substring test) on character lists. -/
def infixOfL (needle : List Char) : List Char → Bool
  | [] => needle.isEmpty
  | c :: rest => prefixOfL needle (c :: rest) || infixOfL needle rest

/-- Python `str.startswith` on strings. -/
def startsWithL (s pre : String) : Bool :=
  prefixOfL pre.data s.data

/-- Truthiness of an optional Python string (`None` and `""` are falsy). -/
def truthyStr : Option String → Bool
  | none => false
  | some s => !(s.data.isEmpty)

/-- Python `str(x)` for an optional string (`str(None) = "None"`). -/
def pyStrOpt : Option String → String
  | none => "None"
  | some s => s

/-! ## Frame Codec (`_ws_send_text` / `_ws_recv_frame`)

Bytes are `Nat` values; a byte string is a `List Nat`.  The socket is a
finite byte list; `recvN n` returns up to `n` of the remaining bytes
(all that a finished stream still holds), and `[]` once the stream has
ended — the behaviour of `socket.recv` at end of stream. -/

/-- Errors the Python decoder can raise. -/
inductive PyErr where
  | indexError
  | structError
deriving DecidableEq, Repr

/-- `sock.recv n` over a finite remaining stream: the bytes returned and
the rest of the stream. -/
def recvN (n : Nat) (s : List Nat) : List Nat × List Nat :=
  (s.take n, s.drop n)

/-- `struct.pack` big-endian of `v` into `n` bytes. -/
def packBE (n v : Nat) : List Nat :=
  (List.range n).map (fun i => v / 256 ^ (n - 1 - i) % 256)

/-- `struct.unpack` big-endian value of a byte list. -/
def unpackBE (bs : List Nat) : Nat :=
  bs.foldl (fun a b => a * 256 + b) 0

/-- `bytes(b ^ mask[i % 4] for i, b in enumerate(payload))` in the
encoder, starting at index `i`.  The encoder mask always has four
bytes, so `getD` never hits its default there. -/
def maskBytes (mask : List Nat) : Nat → List Nat → List Nat
  | _, [] => []
  | i, b :: rest => (b ^^^ mask.getD (i % 4) 0) :: maskBytes mask (i + 1) rest

/-- `_ws_send_text`: the exact byte string `header + mask + masked_payload`
written to the socket, with the payload already UTF-8 encoded to bytes
and the 4-byte mask key (`os.urandom(4)`) passed in explicitly. -/
def ws_send_text (payload mask : List Nat) : List Nat :=
  let first := 0x81
  let header :=
    if payload.length < 126 then
      [first, 0x80 ||| payload.length]
    else if payload.length < 65536 then
      [first, 0x80 ||| 126] ++ packBE 2 payload.length
    else
      [first, 0x80 ||| 127] ++ packBE 8 payload.length
  header ++ mask ++ maskBytes mask 0 payload

/-- The payload read loop of the decoder
(`while len(payload) < length: chunk = sock.recv(...)`), accumulating
into `acc`.  Under the `recvN` stream model each pass either obtains all
requested bytes or exhausts the stream, so any fuel of at least one
yields the fixpoint of the loop. -/
def payloadLoopAux (need : Nat) : Nat → List Nat → List Nat → List Nat × List Nat
  | 0, acc, s => (acc, s)
  | fuel + 1, acc, s =>
    if acc.length < need then
      let (chunk, s2) := recvN (need - acc.length) s
      if chunk.isEmpty then (acc, s)
      else payloadLoopAux need fuel (acc ++ chunk) s2
    else (acc, s)

/-- The payload read loop of the decoder from an empty accumulator. -/
def payloadLoop (need : Nat) (s : List Nat) : List Nat × List Nat :=
  payloadLoopAux need (need + 1) [] s

/-- `bytes(b ^ mask[i % 4] for i, b in enumerate(payload))` in the
decoder: the received mask may be shorter than four bytes, in which case
indexing `mask[i % 4]` raises `IndexError` exactly as in Python. -/
def unmaskE (maskB : List Nat) : Nat → List Nat → Except PyErr (List Nat)
  | _, [] => .ok []
  | i, b :: rest =>
    if h : i % 4 < maskB.length then
      match unmaskE maskB (i + 1) rest with
      | .ok tl => .ok ((b ^^^ maskB.get ⟨i % 4, h⟩) :: tl)
      | .error e => .error e
    else .error .indexError

/-- `_ws_recv_frame` over a finite remaining stream: `.ok none` models
the `(None, None)` end-of-stream return, `.ok (some (opcode, payload))`
a decoded frame, `.error` a raised Python exception (`IndexError` from
`header[1]`, `struct.error` from `struct.unpack` on short data). -/
def ws_recv_frame (s : List Nat) : Except PyErr (Option (Nat × List Nat)) :=
  let (header, s1) := recvN 2 s
  match header with
  | [] => .ok none
  | [_] => .error .indexError
  | b1 :: b2 :: _ =>
    let opcode := b1 &&& 0x0F
    let masked := (b2 &&& 0x80) ≠ 0
    let len7 := b2 &&& 0x7F
    let lenRes : Except PyErr (Nat × List Nat) :=
      if len7 = 126 then
        let (lb, s2) := recvN 2 s1
        if lb.length = 2 then .ok (unpackBE lb, s2) else .error .structError
      else if len7 = 127 then
        let (lb, s2) := recvN 8 s1
        if lb.length = 8 then .ok (unpackBE lb, s2) else .error .structError
      else .ok (len7, s1)
    match lenRes with
    | .error e => .error e
    | .ok (length, s2) =>
      let (maskB, s3) := if masked then recvN 4 s2 else ([], s2)
      let (payload, _s4) := payloadLoop length s3
      if masked ∧ ¬ maskB.isEmpty then
        match unmaskE maskB 0 payload with
        | .ok p => .ok (some (opcode, p))
        | .error e => .error e
      else .ok (some (opcode, payload))

/-- Number of extended-length bytes the decoder reads for a 7-bit
length field value. -/
def extLenByteCount (len7 : Nat) : Nat :=
  if len7 = 126 then 2 else if len7 = 127 then 8 else 0

/-! ## Deployment Poller (`deploy_app` and helpers)

The Databricks SDK control plane is abstracted as an environment of
responses: the pre-deploy `apps.get`, the response to each successive
`apps.deploy` submission, and the `apps.get` response observed at each
iteration of the transition-polling loop.  `.error` models a raised
exception; wall-clock time is abstracted by `pollTicks`, the number of
2-second poll iterations the 60-second deadline admits. -/

/-- `status` of an SDK `AppDeployment` object. -/
structure DepStatus where
  state : Option String
  message : Option String
deriving DecidableEq, Repr

/-- An SDK `AppDeployment` object (the attributes `_deployment_to_dict`
reads). -/
structure AppDeployment where
  deployment_id : Option String
  source_code_path : Option String
  mode : Option String
  create_time : Option String
  status : Option DepStatus
deriving DecidableEq, Repr

/-- The dictionary `_deployment_to_dict` builds: `state`/`message` keys
are present only when the deployment carries a truthy `status`. -/
structure DeploymentDict where
  deployment_id : Option String
  source_code_path : Option String
  mode : String
  create_time : String
  state : Option String
  message : Option (Option String)
deriving DecidableEq, Repr

/-- `_deployment_to_dict`. -/
def deployment_to_dict (d : AppDeployment) : DeploymentDict :=
  { deployment_id := d.deployment_id
    source_code_path := d.source_code_path
    mode := pyStrOpt d.mode
    create_time := pyStrOpt d.create_time
    state := d.status.map (fun st => pyStrOpt st.state)
    message := d.status.map (fun st => st.message) }

/-- `_normalize_workspace_source_path`: strip, keep `/Workspace/` paths,
prepend `/Workspace` to the shorthand roots, pass everything else
through. -/
def normalize_workspace_source_path (source_code_path : String) : String :=
  let path := pyStrip source_code_path
  if path = "" then path
  else if startsWithL path "/Workspace/" then path
  else if startsWithL path "/Users/" || startsWithL path "/Shared/" ||
      startsWithL path "/Repos/" then
    "/Workspace" ++ path
  else path

/-- `_normalize_deploy_mode`: strip and uppercase, empty becomes `None`. -/
def normalize_deploy_mode (mode : Option String) : Option String :=
  match mode with
  | none => none
  | some m =>
    let normalized := pyStrip m
    if normalized = "" then none
    else some ⟨normalized.data.map Char.toUpper⟩

/-- Environment of control-plane responses consumed by one `deploy_app`
call. -/
structure DeployEnv where
  /-- The pre-deploy `apps.get`: a raised exception, or the optional
  optional `active_deployment`. -/
  prevApp : Except Unit (Option AppDeployment)
  /-- Response to the `i`-th deploy submission for a given normalized
  source path and mode. -/
  deploy : String → Option String → Nat → Except String AppDeployment
  /-- The `apps.get` response at poll iteration `j`. -/
  pollApp : Nat → Except Unit (Option AppDeployment)
  /-- Number of poll-loop iterations before the 60 s deadline. -/
  pollTicks : Nat

/-- `previous_deployment_id`: swallowed exception or absent active
deployment both give `None`. -/
def previousIdOf (r : Except Unit (Option AppDeployment)) : Option String :=
  match r with
  | .error _ => none
  | .ok none => none
  | .ok (some d) => d.deployment_id

/-- Observable events of the deploy submission retry loop. -/
inductive DeployEv where
  | attempt (i : Nat)
  | sleep (secs : Nat)
deriving DecidableEq, Repr

/-- The body of `for _ in range(5)` with `fuel` retries left after the
current attempt: a successful submission breaks out, a failure sleeps
2 s and retries, and once the loop ends the last error is re-raised. -/
def deployRetryGo (f : Nat → Except String AppDeployment) (i : Nat) :
    Nat → Except String AppDeployment × List DeployEv
  | 0 =>
    match f i with
    | .ok d => (.ok d, [.attempt i])
    | .error e => (.error e, [.attempt i, .sleep 2])
  | fuel + 1 =>
    match f i with
    | .ok d => (.ok d, [.attempt i])
    | .error _ =>
      let (r, evs) := deployRetryGo f (i + 1) fuel
      (r, .attempt i :: .sleep 2 :: evs)

/-- The deploy submission retry loop: 5 attempts in total. -/
def deployRetry (f : Nat → Except String AppDeployment) :
    Except String AppDeployment × List DeployEv :=
  deployRetryGo f 0 4

/-- The transition-polling loop of `deploy_app`: at iteration `j`, a
read failure is swallowed and retried; an active deployment whose id is
truthy and differs from `previous` is returned at once; `fuel`
iterations remain before the 60 s deadline. -/
def pollGo (g : Nat → Except Unit (Option AppDeployment))
    (previous : Option String) (j : Nat) : Nat → Option DeploymentDict
  | 0 => none
  | fuel + 1 =>
    match g j with
    | .error _ => pollGo g previous (j + 1) fuel
    | .ok none => pollGo g previous (j + 1) fuel
    | .ok (some active) =>
      if truthyStr active.deployment_id ∧ active.deployment_id ≠ previous then
        some (deployment_to_dict active)
      else pollGo g previous (j + 1) fuel

/-- `deploy_app`: capture the previously active deployment id, submit
with up to 5 retries, then — when the immediate response is missing an
id or still points at the previous deployment — poll for the active
deployment id to transition, falling back to the original response at
the deadline. -/
def deploy_app (_app_name source_code_path : String) (mode : Option String)
    (env : DeployEnv) : Except String DeploymentDict :=
  let normalized_source_code_path := normalize_workspace_source_path source_code_path
  let normalized_mode := normalize_deploy_mode mode
  let previous_deployment_id := previousIdOf env.prevApp
  match (deployRetry (env.deploy normalized_source_code_path normalized_mode)).1 with
  | .error e => .error e
  | .ok deployment =>
    let result := deployment_to_dict deployment
    let new_deployment_id := result.deployment_id
    if ¬ truthyStr new_deployment_id ∨
        (truthyStr previous_deployment_id ∧
          new_deployment_id = previous_deployment_id) then
      match pollGo env.pollApp previous_deployment_id 0 env.pollTicks with
      | some d => .ok d
      | none => .ok result
    else .ok result

/-- No poll response shows a transition: every readable active
deployment id is untruthy or equal to the previous id. -/
def noTransition (g : Nat → Except Unit (Option AppDeployment))
    (previous : Option String) : Prop :=
  ∀ j, match g j with
    | .ok (some a) => ¬ (truthyStr a.deployment_id ∧ a.deployment_id ≠ previous)
    | _ => True

/-- Number of submission attempts recorded in a retry event trace. -/
def attemptCount (evs : List DeployEv) : Nat :=
  (evs.filter (fun ev => match ev with | .attempt _ => true | _ => false)).length

/-! ## Concrete environments for the poller claims -/

/-- A deployment whose id is `d1`. -/
def depD1 : AppDeployment :=
  { deployment_id := some "d1", source_code_path := some "/Workspace/Users/u/app",
    mode := none, create_time := none, status := none }

/-- A deployment whose id is `d2`. -/
def depD2 : AppDeployment :=
  { deployment_id := some "d2", source_code_path := some "/Workspace/Users/u/app",
    mode := none, create_time := none, status := none }

/-- The C1 scenario: previous active id `d1`, immediate deploy response
still `d1`, and get-app observations `d1`, `d1`, `d2` during polling. -/
def envC1 : DeployEnv :=
  { prevApp := .ok (some depD1)
    deploy := fun _ _ _ => .ok depD1
    pollApp := fun j => .ok (some (if 2 ≤ j then depD2 else depD1))
    pollTicks := 3 }

/-- A no-transition environment: every poll observation still reports
`d1`. -/
def envC2 : DeployEnv :=
  { prevApp := .ok (some depD1)
    deploy := fun _ _ _ => .ok depD1
    pollApp := fun _ => .ok (some depD1)
    pollTicks := 5 }

/-! ## Handshake Negotiator (status-line validation in
`_get_app_logs_via_logz_ws`) -/

/-- `response.split(b"\r\n", 1)[0]`: everything before the first
occurrence of the separator (the whole list when absent). -/
def splitFirstOn (sep : List Char) : List Char → List Char
  | [] => []
  | c :: rest =>
    if prefixOfL sep (c :: rest) = true then [] else c :: splitFirstOn sep rest

/-- The status line of the upgrade response. -/
def status_line_of (response : String) : String :=
  ⟨splitFirstOn "\r\n".data response.data⟩

/-- The upgrade validation: `if " 101 " not in status_line:` raise
`RuntimeError(f"WebSocket upgrade failed: {status_line}")` — the
`.error` value is the exact exception message. -/
def handshake_check (response : String) : Except String Unit :=
  let status_line := status_line_of response
  if infixOfL " 101 ".data status_line.data = true then .ok ()
  else .error ("WebSocket upgrade failed: " ++ status_line)

/-! ## Log Stream Session (receive loop of `_get_app_logs_via_logz_ws`)

`json.loads` is standard-library code outside this repository, so the
parse outcome is a parameter: `none` models a raised JSON decode error
(the `except` branch appending the raw text). -/

/-- A parsed log entry (each field already `str(...)`-converted, with
`""` defaults). -/
structure LogEntry where
  timestamp : String
  source : String
  severity : String
  message : String
deriving DecidableEq, Repr

/-- One observation of the receive loop: a decoded frame, the
`(None, None)` end-of-stream return, or `socket.timeout`. -/
inductive FrameIn where
  | timeout
  | eof
  | frame (opcode : Nat) (payload : String)
deriving DecidableEq, Repr

/-- Rendering of a parsed entry:
`" ".join(x for x in [ts, source, severity] if x).strip()` before the
colon, bare message when the prefix is empty. -/
def render_entry (e : LogEntry) : String :=
  let px := pyStrip (String.intercalate " "
    (([e.timestamp, e.source, e.severity].filter (fun x => !(x == "")))))
  if px = "" then e.message else px ++ ": " ++ e.message

/-- The bounded receive loop: stops at the deadline (list end), at 500
accumulated entries, on timeout, end-of-stream, close (0x8) or the NUL
sentinel; answers pings (0x9) and skips non-text frames and
whitespace-only text; otherwise appends the rendered entry, or the raw
text when JSON parsing fails. -/
def logLoop (parse : String → Option LogEntry) :
    List FrameIn → List String → List String
  | [], lines => lines
  | f :: rest, lines =>
    if 500 ≤ lines.length then lines
    else
      match f with
      | .timeout => lines
      | .eof => lines
      | .frame opcode payload =>
        if opcode = 8 then lines
        else if opcode = 9 then logLoop parse rest lines
        else if ¬ opcode = 1 then logLoop parse rest lines
        else
          if payload = "\x00" then lines
          else if payload.data.all isPySpace = true then logLoop parse rest lines
          else
            match parse payload with
            | some entry => logLoop parse rest (lines ++ [render_entry entry])
            | none => logLoop parse rest (lines ++ [payload])

/-- The string the session returns: `"\n".join(lines).strip()`. -/
def get_app_logs_text (parse : String → Option LogEntry)
    (frames : List FrameIn) : String :=
  pyStrip (String.intercalate "\n" (logLoop parse frames []))

/-- A JSON parser that always fails (used only to instantiate
environments at concrete inputs). -/
def parse_none : String → Option LogEntry := fun _ => none

/-! ## App tool layer (`create_or_update_app` of the MCP server) -/

/-- Message raised when a new app is requested without a source path. -/
def missing_path_msg : String :=
  "source_code_path is required to create and deploy a new app. Please provide an existing workspace path like /Workspace/Users/<you>/<app_dir>."

/-- Message raised for an unclear source path. -/
def unclear_path_msg : String :=
  "source_code_path is unclear. Please provide an explicit workspace path starting with /Workspace/, /Users/, /Shared/, or /Repos/."

/-- `_is_clear_workspace_path`. -/
def is_clear_workspace_path (path : String) : Bool :=
  if path = "" then false
  else startsWithL path "/Workspace/" || startsWithL path "/Users/" ||
    startsWithL path "/Shared/" || startsWithL path "/Repos/"

/-- `(source_code_path or "").strip() or None`. -/
def stripToNone (s : Option String) : Option String :=
  match s with
  | none => none
  | some s0 => if pyStrip s0 = "" then none else some (pyStrip s0)

/-- Errors `create_or_update_app` can surface: its own `ValueError`
validations, or an exception propagated from `deploy_app`. -/
inductive COUErr where
  | validation (msg : String)
  | deployFailure (msg : String)
deriving DecidableEq, Repr

/-- The result dictionary of `create_or_update_app` (the fields the
claims inspect). -/
structure COUResult where
  created : Bool
  deployment : Option DeploymentDict
  deployed_source_code_path : Option String
deriving DecidableEq, Repr

/-- The tool environment: the set of existing app names (the control
plane consulted by `_find_app_by_name`) and the deploy environment
handed to `deploy_app`. -/
structure COUEnv where
  world : List String
  deployEnv : DeployEnv

/-- `create_or_update_app`: look up by name, validate the source path,
create when absent (the returned list is the workspace app-name state
after the call), then deploy when a source path was supplied.  Tracking
in the manifest is best-effort (`try/except pass`) and outside the
model; on a deploy failure the raised error propagates. -/
def create_or_update_app (name : String) (source_code_path : Option String)
    (mode : Option String) (env : COUEnv) :
    Except COUErr (COUResult × List String) :=
  match stripToNone source_code_path with
  | none =>
    if name ∈ env.world then
      .ok ({ created := false, deployment := none,
             deployed_source_code_path := none }, env.world)
    else .error (.validation missing_path_msg)
  | some q =>
    if is_clear_workspace_path q = false then .error (.validation unclear_path_msg)
    else
      let createdFlag : Bool := if name ∈ env.world then false else true
      let world2 := if name ∈ env.world then env.world else env.world ++ [name]
      match deploy_app name q mode env.deployEnv with
      | .error e => .error (.deployFailure e)
      | .ok dd =>
        .ok ({ created := createdFlag
               deployment := some dd
               deployed_source_code_path :=
                 if truthyStr dd.source_code_path = true then dd.source_code_path
                 else none }, world2)

/-- An environment whose workspace already holds `app1`. -/
def envC7 : COUEnv := { world := ["app1"], deployEnv := envC2 }

/-! ## Frame codec lemmas -/

/-- Header-byte arithmetic of the 7-bit length form: setting the MASK
bit on a length below 128 keeps the 7-bit length field intact and
leaves the MASK bit visible. -/
theorem maskedLenBits : ∀ L, L < 128 →
    ((0x80 ||| L) &&& 0x7F = L ∧ (0x80 ||| L) &&& 0x80 ≠ 0) := by decide

theorem maskBytes_length (mask : List Nat) (i : Nat) (p : List Nat) :
    (maskBytes mask i p).length = p.length := by
  induction p generalizing i with
  | nil => rfl
  | cons b rest ih => simp [maskBytes, ih]

/-- Unmasking with the same 4-byte key undoes masking (XOR involution,
byte by byte along the cycled key). -/
theorem unmaskE_maskBytes (mask : List Nat) (hm : mask.length = 4) :
    ∀ (i : Nat) (p : List Nat), unmaskE mask i (maskBytes mask i p) = .ok p := by
  intro i p
  induction p generalizing i with
  | nil => rfl
  | cons b rest ih =>
    have h4 : i % 4 < mask.length := by
      rw [hm]; exact Nat.mod_lt _ (by norm_num)
    have hgd : mask.getD (i % 4) 0 = mask.get ⟨i % 4, h4⟩ := by
      simp [List.getD_eq_getElem, List.get_eq_getElem, h4]
    simp only [maskBytes, unmaskE, dif_pos h4, ih (i + 1)]
    rw [hgd, Nat.xor_cancel_right]

/-- If the mask has its full four bytes, the unmasking stage never
raises. -/
theorem unmaskE_ok_of_four (mask : List Nat) (hm : mask.length = 4) :
    ∀ (i : Nat) (p : List Nat), ∃ q, unmaskE mask i p = .ok q := by
  intro i p
  induction p generalizing i with
  | nil => exact ⟨[], rfl⟩
  | cons b rest ih =>
    have h4 : i % 4 < mask.length := by
      rw [hm]; exact Nat.mod_lt _ (by norm_num)
    obtain ⟨q, hq⟩ := ih (i + 1)
    exact ⟨(b ^^^ mask.get ⟨i % 4, h4⟩) :: q, by
      simp only [unmaskE, dif_pos h4, hq]⟩

/-- Under the finite-stream `recvN` model, the payload read loop yields
exactly the bytes still on the stream up to the requested length. -/
theorem payloadLoopAux_take_drop (need : Nat) (s : List Nat) (f : Nat) :
    payloadLoopAux need (f + 1) [] s = (s.take need, s.drop need) := by
  match need, s with
  | 0, s => simp [payloadLoopAux]
  | m + 1, [] => simp [payloadLoopAux, recvN]
  | m + 1, a :: t =>
    have h1 : payloadLoopAux (m + 1) (f + 1) [] (a :: t) =
        payloadLoopAux (m + 1) f (a :: t.take m) (t.drop m) := by
      simp [payloadLoopAux, recvN]
    rw [h1]
    cases f with
    | zero => simp [payloadLoopAux]
    | succ g =>
      simp only [payloadLoopAux]
      by_cases hlen : (a :: List.take m t).length < m + 1
      · have ht : t.length < m := by
          simp only [List.length_cons, List.length_take] at hlen
          omega
        have hd : List.drop m t = [] := List.drop_eq_nil_of_le (le_of_lt ht)
        rw [if_pos hlen]
        simp [recvN, hd]
      · rw [if_neg hlen]
        simp

theorem payloadLoop_take_drop (need : Nat) (s : List Nat) :
    payloadLoop need s = (s.take need, s.drop need) :=
  payloadLoopAux_take_drop need s need

/-- C3: decoding (`_ws_recv_frame`) the frame produced by the encoder
(`_ws_send_text`) for any text payload of at most 125 bytes yields the
original payload unchanged (opcode 1), for every choice of the 4-byte
mask key: masking followed by unmasking is the identity on the
payload. -/
theorem C3_masked_text_roundtrip (payload mask : List Nat)
    (hp : payload.length ≤ 125) (hm : mask.length = 4) :
    ws_recv_frame (ws_send_text payload mask) = .ok (some (1, payload)) := by
  obtain ⟨m0, m1, m2, m3, rfl⟩ : ∃ a b c d, mask = [a, b, c, d] := by
    rcases mask with _ | ⟨a, _ | ⟨b, _ | ⟨c, _ | ⟨d, _ | ⟨e, t2⟩⟩⟩⟩⟩ <;>
      simp only [List.length_cons, List.length_nil] at hm <;>
      first
        | exact ⟨a, b, c, d, rfl⟩
        | exact absurd hm (by omega)
  have hL : payload.length < 126 := by omega
  have hb := maskedLenBits payload.length (by omega)
  have hsend : ws_send_text payload [m0, m1, m2, m3] =
      0x81 :: (0x80 ||| payload.length) ::
        m0 :: m1 :: m2 :: m3 :: maskBytes [m0, m1, m2, m3] 0 payload := by
    simp [ws_send_text, hL]
  have h126 : (0x80 ||| payload.length) &&& 0x7F ≠ 126 := by
    rw [hb.1]; omega
  have h127 : (0x80 ||| payload.length) &&& 0x7F ≠ 127 := by
    rw [hb.1]; omega
  have hlen4 : ([m0, m1, m2, m3] : List Nat).length = 4 := rfl
  have hmp : (maskBytes [m0, m1, m2, m3] 0 payload).length = payload.length :=
    maskBytes_length _ _ _
  have htake : (maskBytes [m0, m1, m2, m3] 0 payload).take payload.length
      = maskBytes [m0, m1, m2, m3] 0 payload := by
    rw [← hmp]; exact List.take_length _
  have hop : (0x81 : Nat) &&& 0x0F = 1 := by decide
  rw [hsend]
  simp only [ws_recv_frame, recvN]
  simp [h126, h127, hb.1, hb.2, payloadLoop_take_drop, htake, hop,
    unmaskE_maskBytes [m0, m1, m2, m3] hlen4]
  have hne126 : payload.length ≠ 126 := by omega
  have hne127 : payload.length ≠ 127 := by omega
  simp [hne126, hne127, htake, unmaskE_maskBytes [m0, m1, m2, m3] hlen4]

/-- The unmask stage never raises when the mask arrived complete or the
payload is empty. -/
theorem unmask_stage_ok (maskB payload : List Nat)
    (h : maskB.length = 4 ∨ payload = []) :
    ∃ q, unmaskE maskB 0 payload = .ok q := by
  rcases h with h4 | rfl
  · exact unmaskE_ok_of_four maskB h4 0 payload
  · exact ⟨[], rfl⟩

/-- C4, amended: the decoder returns benignly (no raised exception) on
an empty stream and on any stream holding a full 2-byte header plus all
extended-length bytes its length field calls for — truncation inside
the mask or payload yields end-of-stream or a partial frame, not an
error.  (Truncation inside the extended length bytes, by contrast,
raises `struct.error`; see the counterexample theorem.) -/
theorem C4_truncation_benign (s : List Nat)
    (h : s = [] ∨ ∃ b1 b2 rest, s = b1 :: b2 :: rest ∧
        extLenByteCount (b2 &&& 0x7F) ≤ rest.length) :
    ∃ r, ws_recv_frame s = Except.ok r := by
  rcases h with rfl | ⟨b1, b2, rest, rfl, hext⟩
  · exact ⟨none, rfl⟩
  · simp only [ws_recv_frame, recvN]
    simp
    have hstage : ∀ (o length : Nat) (s2 : List Nat), ¬ b2 &&& 128 = 0 →
        ∃ r,
          (if ¬b2 &&& 128 = 0 ∧
              ¬(if b2 &&& 128 = 0 then (([] : List Nat), s2)
                else (List.take 4 s2, List.drop 4 s2)).1 = [] then
            match
              unmaskE
                (if b2 &&& 128 = 0 then (([] : List Nat), s2)
                 else (List.take 4 s2, List.drop 4 s2)).1 0
                (payloadLoop length
                  (if b2 &&& 128 = 0 then (([] : List Nat), s2)
                   else (List.take 4 s2, List.drop 4 s2)).2).1 with
            | Except.ok p => Except.ok (some (o, p))
            | Except.error e => Except.error e
          else
            Except.ok
              (some (o,
                (payloadLoop length
                  (if b2 &&& 128 = 0 then (([] : List Nat), s2)
                   else (List.take 4 s2, List.drop 4 s2)).2).1))) =
            Except.ok r := by
      intro o length s2 h8
      have hmp : (List.take 4 s2).length = 4 ∨
          (List.take length (List.drop 4 s2)) = [] := by
        by_cases h4 : 4 ≤ s2.length
        · left; simp [List.length_take]; omega
        · right
          have : List.drop 4 s2 = [] := List.drop_eq_nil_of_le (by omega)
          simp [this]
      obtain ⟨q, hq⟩ := unmask_stage_ok _ _ hmp
      simp only [if_neg h8, payloadLoop_take_drop]
      by_cases hne : (List.take 4 s2) = []
      · simp [hne, h8]
      · simp [hne, h8, hq]
    have hlen2 : b2 &&& 127 = 126 → 2 ≤ rest.length := by
      intro h6; simpa [extLenByteCount, h6] using hext
    have hlen8 : b2 &&& 127 = 127 → 8 ≤ rest.length := by
      intro h7; simpa [extLenByteCount, h7] using hext
    by_cases h6 : b2 &&& 127 = 126
    · rw [if_pos h6, if_pos (hlen2 h6)]
      by_cases h8 : b2 &&& 128 = 0
      · simp [h8]
      · simpa [h8] using
          hstage (b1 &&& 15) (unpackBE (List.take 2 rest)) (List.drop 2 rest) h8
    · rw [if_neg h6]
      by_cases h7 : b2 &&& 127 = 127
      · rw [if_pos h7, if_pos (hlen8 h7)]
        by_cases h8 : b2 &&& 128 = 0
        · simp [h8]
        · simpa [h8] using
            hstage (b1 &&& 15) (unpackBE (List.take 8 rest)) (List.drop 8 rest) h8
      · rw [if_neg h7]
        by_cases h8 : b2 &&& 128 = 0
        · simp [h8]
        · simpa [h8] using hstage (b1 &&& 15) (b2 &&& 127) rest h8

/-- Witness for C3 at a concrete two-byte payload and mask key. -/
theorem C3_masked_text_roundtrip_witness :
    ([104, 105] : List Nat).length ≤ 125 ∧ ([7, 3, 5, 9] : List Nat).length = 4 ∧
      ws_recv_frame (ws_send_text [104, 105] [7, 3, 5, 9]) =
        Except.ok (some (1, [104, 105])) :=
  ⟨by decide, by decide,
    C3_masked_text_roundtrip [104, 105] [7, 3, 5, 9] (by decide) (by decide)⟩

/-- Witness for C4 (amended) on a frame truncated mid-payload: header
claims five payload bytes, only two arrived, and the decoder still
returns `.ok`. -/
theorem C4_truncation_benign_witness :
    ∃ r, ws_recv_frame [0x81, 0x05, 10, 20] = Except.ok r :=
  C4_truncation_benign [0x81, 0x05, 10, 20]
    (Or.inr ⟨0x81, 0x05, [10, 20], rfl, by decide⟩)

/-- C4 counterexample: a stream that ends right after a 2-byte header
whose 7-bit length field is 126 (so two extended length bytes are due)
makes `_ws_recv_frame` raise `struct.error` — the read of the extended
length bytes returns zero bytes mid-frame, yet the decoder raises
instead of treating it as benign end-of-stream. -/
theorem C4_ext_len_truncation_raises :
    ws_recv_frame [0x81, 0x7E] = Except.error PyErr.structError := rfl

/-! ## Deployment poller lemmas -/

/-- Any deployment the polling loop returns has a truthy id different
from the previous id. -/
theorem pollGo_some_new_id (g : Nat → Except Unit (Option AppDeployment))
    (previous : Option String) :
    ∀ (fuel j : Nat) (d : DeploymentDict), pollGo g previous j fuel = some d →
      truthyStr d.deployment_id = true ∧ d.deployment_id ≠ previous := by
  intro fuel
  induction fuel with
  | zero => intro j d h; simp [pollGo] at h
  | succ n ih =>
    intro j d h
    simp only [pollGo] at h
    cases hg : g j with
    | error u => rw [hg] at h; dsimp only at h; exact ih (j + 1) d h
    | ok oapp =>
      rw [hg] at h
      cases oapp with
      | none => dsimp only at h; exact ih (j + 1) d h
      | some active =>
        dsimp only at h
        by_cases hc : truthyStr active.deployment_id = true ∧
            active.deployment_id ≠ previous
        · rw [if_pos hc] at h
          cases h
          exact ⟨hc.1, hc.2⟩
        · rw [if_neg hc] at h
          exact ih (j + 1) d h

theorem pollGo_none_of_noTransition
    (g : Nat → Except Unit (Option AppDeployment)) (previous : Option String)
    (h : noTransition g previous) :
    ∀ (fuel j : Nat), pollGo g previous j fuel = none := by
  intro fuel
  induction fuel with
  | zero => intro j; rfl
  | succ n ih =>
    intro j
    have hj := h j
    simp only [pollGo]
    cases hg : g j with
    | error u => exact ih (j + 1)
    | ok oapp =>
      cases oapp with
      | none => exact ih (j + 1)
      | some active =>
        rw [hg] at hj
        dsimp only at hj ⊢
        rw [if_neg hj]
        exact ih (j + 1)

/-- When every one of the five submissions fails, the retry loop makes
exactly the attempts 0..4, interleaved with 2 s sleeps, and ends with
the error of attempt 4. -/
theorem deployRetry_all_fail (f : Nat → Except String AppDeployment)
    (errs : Nat → String) (h : ∀ i, i < 5 → f i = .error (errs i)) :
    deployRetry f = (.error (errs 4),
      [.attempt 0, .sleep 2, .attempt 1, .sleep 2, .attempt 2, .sleep 2,
       .attempt 3, .sleep 2, .attempt 4, .sleep 2]) := by
  have h0 := h 0 (by omega)
  have h1 := h 1 (by omega)
  have h2 := h 2 (by omega)
  have h3 := h 3 (by omega)
  have h4 := h 4 (by omega)
  simp [deployRetry, deployRetryGo, h0, h1, h2, h3, h4]

/-- If the first success is at attempt `i + k` (with `k` failures
before it, counting from `i`), the loop returns that success and the
trace holds exactly `k + 1` attempts. -/
theorem deployRetryGo_first_ok (f : Nat → Except String AppDeployment) :
    ∀ (k fuel i : Nat) (d : AppDeployment), k ≤ fuel → f (i + k) = .ok d →
      (∀ m, m < k → ∃ e, f (i + m) = .error e) →
      (deployRetryGo f i fuel).1 = .ok d ∧
        attemptCount (deployRetryGo f i fuel).2 = k + 1 := by
  intro k
  induction k with
  | zero =>
    intro fuel i d _ hok _
    rw [Nat.add_zero] at hok
    cases fuel with
    | zero => simp [deployRetryGo, hok, attemptCount]
    | succ n => simp [deployRetryGo, hok, attemptCount]
  | succ m ih =>
    intro fuel i d hle hok herr
    obtain ⟨fu, rfl⟩ : ∃ fu, fuel = fu + 1 := ⟨fuel - 1, by omega⟩
    obtain ⟨e0, he0⟩ := herr 0 (by omega)
    rw [Nat.add_zero] at he0
    have hok2 : f (i + 1 + m) = .ok d := by
      have : i + 1 + m = i + (m + 1) := by omega
      rw [this]; exact hok
    have herr2 : ∀ n, n < m → ∃ e, f (i + 1 + n) = .error e := by
      intro n hn
      have : i + 1 + n = i + (n + 1) := by omega
      rw [this]; exact herr (n + 1) (by omega)
    obtain ⟨hres, hcount⟩ := ih fu (i + 1) d (by omega) hok2 herr2
    constructor
    · simp only [deployRetryGo, he0]
      exact hres
    · simp only [deployRetryGo, he0]
      simp [attemptCount] at hcount ⊢
      omega

/-- C1: every deployment returned through the transition-polling path
carries a truthy active deployment id different from the previous id;
in the concrete scenario with previous id `d1` and observations
`d1, d1, d2`, `deploy_app` returns the `d2` deployment, and polling
that stops before the `d2` observation returns nothing — the two `d1`
observations alone never produce a result. -/
theorem C1_transition_poll_new_id :
    (∀ (g : Nat → Except Unit (Option AppDeployment)) (previous : Option String)
        (fuel j : Nat) (d : DeploymentDict),
        pollGo g previous j fuel = some d →
          truthyStr d.deployment_id = true ∧ d.deployment_id ≠ previous)
    ∧ deploy_app "app" "/Workspace/Users/u/app" none envC1 =
        .ok (deployment_to_dict depD2)
    ∧ pollGo envC1.pollApp (some "d1") 0 2 = none := by
  refine ⟨fun g prev fuel j d h => pollGo_some_new_id g prev fuel j d h, ?_, ?_⟩
  · rfl
  · rfl

/-- Witness for C1 at the concrete scenario: the id of the returned
dictionary is truthy and differs from `d1`. -/
theorem C1_transition_poll_new_id_witness :
    truthyStr (deployment_to_dict depD2).deployment_id = true ∧
      (deployment_to_dict depD2).deployment_id ≠ some "d1" :=
  C1_transition_poll_new_id.1 envC1.pollApp (some "d1") 3 0
    (deployment_to_dict depD2) rfl

/-- C2: when the submission succeeds and the polling window elapses with
no observation of a truthy active id different from the previous id,
`deploy_app` returns the dictionary built from the immediate deploy
response and raises nothing. -/
theorem C2_deadline_returns_original :
    ∀ (name path : String) (mode : Option String) (env : DeployEnv)
      (d : AppDeployment),
      (deployRetry (env.deploy (normalize_workspace_source_path path)
        (normalize_deploy_mode mode))).1 = .ok d →
      noTransition env.pollApp (previousIdOf env.prevApp) →
      deploy_app name path mode env = .ok (deployment_to_dict d) := by
  intro name path mode env d hd hnt
  have hpoll : ∀ fuel j,
      pollGo env.pollApp (previousIdOf env.prevApp) j fuel = none :=
    pollGo_none_of_noTransition _ _ hnt
  simp only [deploy_app, hd, hpoll]
  split <;> rfl

/-- Witness for C2: an environment whose observations never leave `d1`
makes `deploy_app` return the original deploy dictionary. -/
theorem C2_deadline_returns_original_witness :
    deploy_app "app" "/Workspace/Users/u/app" none envC2 =
      .ok (deployment_to_dict depD1) :=
  C2_deadline_returns_original "app" "/Workspace/Users/u/app" none envC2 depD1
    rfl (by intro j; simp [envC2, depD1, truthyStr, previousIdOf])

/-- C5: if all five submissions fail, the retry loop performs exactly
attempts 0..4 separated by fixed 2 s sleeps and ends with the error of
the last attempt (which `deploy_app` re-raises); if attempt `k < 5` is
the first success, exactly `k + 1` attempts are made and the loop
returns that success. -/
theorem C5_submission_retry_bounds :
    (∀ (f : Nat → Except String AppDeployment) (errs : Nat → String),
        (∀ i, i < 5 → f i = .error (errs i)) →
        deployRetry f = (.error (errs 4),
          [.attempt 0, .sleep 2, .attempt 1, .sleep 2, .attempt 2, .sleep 2,
           .attempt 3, .sleep 2, .attempt 4, .sleep 2]))
    ∧ (∀ (f : Nat → Except String AppDeployment) (k : Nat) (d : AppDeployment),
        k < 5 → f k = .ok d → (∀ m, m < k → ∃ e, f m = .error e) →
        (deployRetry f).1 = .ok d ∧ attemptCount (deployRetry f).2 = k + 1)
    ∧ (∀ (name path : String) (mode : Option String) (env : DeployEnv)
        (errs : Nat → String),
        (∀ i, i < 5 → env.deploy (normalize_workspace_source_path path)
          (normalize_deploy_mode mode) i = .error (errs i)) →
        deploy_app name path mode env = .error (errs 4)) := by
  refine ⟨deployRetry_all_fail, ?_, ?_⟩
  · intro f k d hk hok herr
    have h0 : f (0 + k) = .ok d := by simpa using hok
    have herr0 : ∀ m, m < k → ∃ e, f (0 + m) = .error e := by simpa using herr
    simpa [deployRetry] using
      deployRetryGo_first_ok f k 4 0 d (by omega) h0 herr0
  · intro name path mode env errs h
    have hall := deployRetry_all_fail _ errs h
    simp only [deploy_app, hall]

/-- Witness for C5: a submission that always fails with `boom` yields
five attempts and the final error. -/
theorem C5_submission_retry_bounds_witness :
    deployRetry (fun _ => Except.error "boom") = (Except.error "boom",
      [.attempt 0, .sleep 2, .attempt 1, .sleep 2, .attempt 2, .sleep 2,
       .attempt 3, .sleep 2, .attempt 4, .sleep 2]) :=
  C5_submission_retry_bounds.1 (fun _ => Except.error "boom") (fun _ => "boom")
    (fun _ _ => rfl)

/-! ## Path normalization lemmas (strip idempotence) -/

/-- The first element surviving `dropWhile` fails the predicate. -/
theorem head_dropWhile_false (p : Char → Bool) :
    ∀ (l : List Char) (c : Char) (t2 : List Char),
      l.dropWhile p = c :: t2 → p c = false := by
  intro l
  induction l with
  | nil => intro c t2 h; simp [List.dropWhile] at h
  | cons a t ih =>
    intro c t2 h
    by_cases pa : p a = true
    · rw [List.dropWhile_cons_of_pos pa] at h
      exact ih c t2 h
    · rw [List.dropWhile_cons_of_neg (by simpa using pa)] at h
      cases h
      simpa using pa

theorem dropWhile_idem (p : Char → Bool) (l : List Char) :
    (l.dropWhile p).dropWhile p = l.dropWhile p := by
  cases hd : l.dropWhile p with
  | nil => rfl
  | cons c t2 =>
    exact List.dropWhile_cons_of_neg
      (by simp [head_dropWhile_false p l c t2 hd])

/-- A prefix of a `dropWhile`-stable list is itself `dropWhile`-stable. -/
theorem dropWhile_eq_self_of_isPrefixOf (p : Char → Bool) (x y : List Char)
    (hxy : x <+: y) (hy : y.dropWhile p = y) : x.dropWhile p = x := by
  cases x with
  | nil => rfl
  | cons c t2 =>
    obtain ⟨r, hr⟩ := hxy
    by_cases hc : p c = true
    · exfalso
      rw [← hr, List.cons_append, List.dropWhile_cons_of_pos hc] at hy
      have hlen := congrArg List.length hy
      have hle := (List.dropWhile_suffix (l := t2 ++ r) p).sublist.length_le
      simp [List.length_append] at hlen hle
      omega
    · exact List.dropWhile_cons_of_neg (by simpa using hc)

theorem dropTrailL_isPrefixOf (l : List Char) : dropTrailL l <+: l := by
  have h := List.dropWhile_suffix (l := l.reverse) isPySpace
  rw [show l.reverse.dropWhile isPySpace = (dropTrailL l).reverse by
    simp [dropTrailL]] at h
  exact (List.reverse_suffix).1 h

theorem dropTrailL_idem (l : List Char) :
    dropTrailL (dropTrailL l) = dropTrailL l := by
  unfold dropTrailL
  rw [List.reverse_reverse, dropWhile_idem]

theorem pyStripL_idem (l : List Char) : pyStripL (pyStripL l) = pyStripL l := by
  have hm : (l.dropWhile isPySpace).dropWhile isPySpace = l.dropWhile isPySpace :=
    dropWhile_idem isPySpace l
  have hA : (dropTrailL (l.dropWhile isPySpace)).dropWhile isPySpace
      = dropTrailL (l.dropWhile isPySpace) :=
    dropWhile_eq_self_of_isPrefixOf isPySpace _ _ (dropTrailL_isPrefixOf _) hm
  show dropTrailL ((dropTrailL (l.dropWhile isPySpace)).dropWhile isPySpace)
      = dropTrailL (l.dropWhile isPySpace)
  rw [hA, dropTrailL_idem]

theorem pyStrip_idem (s : String) : pyStrip (pyStrip s) = pyStrip s :=
  congrArg String.mk (pyStripL_idem s.data)

/-- The trailing character of a stripped list is not whitespace. -/
theorem rev_head_nonspace_of_stripped (l : List Char) (h : pyStripL l = l) :
    ∀ c t2, l.reverse = c :: t2 → isPySpace c = false := by
  intro c t2 hr
  have he : l.reverse = ((l.dropWhile isPySpace).reverse).dropWhile isPySpace := by
    conv_lhs => rw [← h]
    unfold pyStripL dropTrailL
    rw [List.reverse_reverse]
  rw [he] at hr
  exact head_dropWhile_false _ _ _ _ hr

/-- The leading character of a stripped list is not whitespace. -/
theorem head_nonspace_of_stripped (l : List Char) (h : pyStripL l = l) :
    ∀ c t2, l = c :: t2 → isPySpace c = false := by
  intro c t2 hl
  by_contra hc
  have hc2 : isPySpace c = true := by
    revert hc; cases isPySpace c <;> simp
  have h1 : l.dropWhile isPySpace = t2.dropWhile isPySpace := by
    rw [hl, List.dropWhile_cons_of_pos hc2]
  have hlen1 : (l.dropWhile isPySpace).length ≤ t2.length := by
    rw [h1]; exact (List.dropWhile_suffix _).sublist.length_le
  have hlen2 : (pyStripL l).length ≤ (l.dropWhile isPySpace).length := by
    unfold pyStripL dropTrailL
    simpa using
      (List.dropWhile_suffix (l := (l.dropWhile isPySpace).reverse) isPySpace).sublist.length_le
  rw [h] at hlen2
  have hll : l.length = t2.length + 1 := by rw [hl]; simp
  omega

/-- A list whose head and last character are both non-whitespace is
`pyStripL`-stable. -/
theorem pyStripL_noop_of_ends (l : List Char)
    (hhead : ∀ c t2, l = c :: t2 → isPySpace c = false)
    (hlast : ∀ c t2, l.reverse = c :: t2 → isPySpace c = false) :
    pyStripL l = l := by
  cases l with
  | nil => rfl
  | cons a t =>
    unfold pyStripL
    rw [List.dropWhile_cons_of_neg (by simp [hhead a t rfl])]
    unfold dropTrailL
    cases hr : (a :: t).reverse with
    | nil => exact absurd (congrArg List.length hr) (by simp)
    | cons c t2 =>
      rw [List.dropWhile_cons_of_neg (by simp [hlast c t2 hr]), ← hr,
        List.reverse_reverse]

theorem prefixOfL_self_append : ∀ (x r : List Char), prefixOfL x (x ++ r) = true := by
  intro x
  induction x with
  | nil => intro r; rfl
  | cons a n ih => intro r; simp [prefixOfL, ih]

/-- A string that starts with `pre` starts with the first character of `pre`. -/
theorem data_head_of_startsWith (q pre : String) (c : Char) (r0 : List Char)
    (hpre : pre.data = c :: r0) (h : startsWithL q pre = true) :
    ∃ r, q.data = c :: r := by
  unfold startsWithL at h
  rw [hpre] at h
  cases hq : q.data with
  | nil => rw [hq] at h; simp [prefixOfL] at h
  | cons b t =>
    rw [hq] at h
    simp [prefixOfL] at h
    exact ⟨t, by rw [h.1]⟩

/-- Prepending `/Workspace` to a stripped path that starts with `/`
yields a string that is again stripped. -/
theorem pyStrip_workspace_append (q : String) (hq : pyStrip q = q)
    (hqd : ∃ r, q.data = '/' :: r) :
    pyStrip ("/Workspace" ++ q) = "/Workspace" ++ q := by
  have hd : ("/Workspace" ++ q).data = '/' :: ("Workspace".data ++ q.data) := rfl
  have hstable : pyStripL (("/Workspace" ++ q).data) = ("/Workspace" ++ q).data := by
    apply pyStripL_noop_of_ends
    · intro c t2 hct
      rw [hd] at hct
      cases hct
      decide
    · intro c t2 hct
      obtain ⟨r, hr⟩ := hqd
      have hrev : ("/Workspace" ++ q).data.reverse
          = q.data.reverse ++ ("/Workspace".data).reverse := by
        rw [show ("/Workspace" ++ q).data = "/Workspace".data ++ q.data from rfl,
          List.reverse_append]
      rw [hrev] at hct
      cases hqr : q.data.reverse with
      | nil =>
        rw [List.reverse_eq_nil_iff] at hqr
        rw [hqr] at hr
        exact absurd hr (by simp)
      | cons c2 t3 =>
        rw [hqr, List.cons_append] at hct
        injection hct with hc ht
        rw [← hc]
        exact rev_head_nonspace_of_stripped q.data (congrArg String.data hq) c2 t3 hqr
  exact congrArg String.mk hstable

/-- Prepending `/Workspace` to a path that starts with `/` yields a
path that starts with `/Workspace/`. -/
theorem startsWith_workspace_append (q : String) (hqd : ∃ r, q.data = '/' :: r) :
    startsWithL ("/Workspace" ++ q) "/Workspace/" = true := by
  obtain ⟨r, hr⟩ := hqd
  show prefixOfL "/Workspace/".data (("/Workspace" ++ q).data) = true
  have h1 : ("/Workspace" ++ q).data = "/Workspace".data ++ q.data := rfl
  rw [h1, hr,
    show ("/Workspace".data : List Char) ++ '/' :: r = "/Workspace/".data ++ r by
      rw [show ("/Workspace/".data : List Char) = "/Workspace".data ++ ['/'] from rfl]
      simp]
  exact prefixOfL_self_append _ _

/-- A path matching one of the shorthand roots starts with `/`. -/
theorem slash_head_of_shorthand (q : String)
    (h2 : (startsWithL q "/Users/" || startsWithL q "/Shared/" ||
      startsWithL q "/Repos/") = true) :
    ∃ r, q.data = '/' :: r := by
  simp only [Bool.or_eq_true] at h2
  rcases h2 with (h | h) | h
  · exact data_head_of_startsWith q "/Users/" '/' "Users/".data rfl h
  · exact data_head_of_startsWith q "/Shared/" '/' "Shared/".data rfl h
  · exact data_head_of_startsWith q "/Repos/" '/' "Repos/".data rfl h

/-- `_normalize_workspace_source_path` is idempotent. -/
theorem normalize_workspace_idem (s : String) :
    normalize_workspace_source_path (normalize_workspace_source_path s)
      = normalize_workspace_source_path s := by
  have hqs : pyStrip (pyStrip s) = pyStrip s := pyStrip_idem s
  by_cases h0 : pyStrip s = ""
  · have hv : normalize_workspace_source_path s = "" := by
      unfold normalize_workspace_source_path
      rw [if_pos h0, h0]
    rw [hv]
    decide
  · by_cases h1 : startsWithL (pyStrip s) "/Workspace/" = true
    · have hv : normalize_workspace_source_path s = pyStrip s := by
        unfold normalize_workspace_source_path
        rw [if_neg h0, if_pos h1]
      rw [hv]
      unfold normalize_workspace_source_path
      rw [hqs, if_neg h0, if_pos h1]
    · by_cases h2 : (startsWithL (pyStrip s) "/Users/" ||
          startsWithL (pyStrip s) "/Shared/" ||
          startsWithL (pyStrip s) "/Repos/") = true
      · have hv : normalize_workspace_source_path s = "/Workspace" ++ pyStrip s := by
          unfold normalize_workspace_source_path
          rw [if_neg h0, if_neg h1, if_pos h2]
        have hqd := slash_head_of_shorthand (pyStrip s) h2
        have hv2 := pyStrip_workspace_append (pyStrip s) hqs hqd
        have hb := startsWith_workspace_append (pyStrip s) hqd
        have hne : ¬ ("/Workspace" ++ pyStrip s = "") := by
          intro heq
          have := congrArg String.data heq
          rw [show ("/Workspace" ++ pyStrip s).data
            = '/' :: ("Workspace".data ++ (pyStrip s).data) from rfl] at this
          simp at this
        rw [hv]
        unfold normalize_workspace_source_path
        rw [hv2, if_neg hne, if_pos hb]
      · have hv : normalize_workspace_source_path s = pyStrip s := by
          unfold normalize_workspace_source_path
          rw [if_neg h0, if_neg h1, if_neg h2]
        rw [hv]
        unfold normalize_workspace_source_path
        rw [hqs, if_neg h0, if_neg h1, if_neg h2]

/-- C10, amended: source-path normalization first strips surrounding
whitespace, and on stripped inputs behaves as the claim states — it is
idempotent and total (a plain function, never raising): stripped paths
under `/Users/`, `/Shared/` or `/Repos/` get `/Workspace` prepended,
stripped paths already under `/Workspace/` are returned unchanged,
every other stripped shape (the empty string included) is returned
unchanged, and `deploy_app` submits the normalized path — hence
unrecognized stripped paths go to the control plane as-is with no
prefix validation. -/
theorem C10_normalize_total_idem :
    (∀ p, normalize_workspace_source_path (normalize_workspace_source_path p)
        = normalize_workspace_source_path p)
    ∧ (∀ p, pyStrip p = p → startsWithL p "/Workspace/" = true →
        normalize_workspace_source_path p = p)
    ∧ (∀ p, pyStrip p = p → startsWithL p "/Workspace/" = false →
        (startsWithL p "/Users/" || startsWithL p "/Shared/" ||
          startsWithL p "/Repos/") = true →
        normalize_workspace_source_path p = "/Workspace" ++ p)
    ∧ (∀ p, pyStrip p = p → startsWithL p "/Workspace/" = false →
        (startsWithL p "/Users/" || startsWithL p "/Shared/" ||
          startsWithL p "/Repos/") = false →
        normalize_workspace_source_path p = p)
    ∧ (∀ (name p : String) (mode : Option String) (env : DeployEnv),
        deploy_app name p mode env
          = deploy_app name (normalize_workspace_source_path p) mode env) := by
  refine ⟨normalize_workspace_idem, ?_, ?_, ?_, ?_⟩
  · intro p hstr h1
    unfold normalize_workspace_source_path
    rw [hstr]
    by_cases h0 : p = ""
    · subst h0; exact absurd h1 (by decide)
    · rw [if_neg h0, if_pos h1]
  · intro p hstr h1 h2
    unfold normalize_workspace_source_path
    rw [hstr]
    have h0 : ¬ (p = "") := by
      intro h0; subst h0; exact absurd h2 (by decide)
    rw [if_neg h0, if_neg (by simp [h1]), if_pos h2]
  · intro p hstr h1 h2
    unfold normalize_workspace_source_path
    rw [hstr]
    by_cases h0 : p = ""
    · rw [if_pos h0, h0]
    · rw [if_neg h0, if_neg (by simp [h1]), if_neg (by simp [h2])]
  · intro name p mode env
    simp only [deploy_app, normalize_workspace_idem]

/-- C10 counterexample: the claim says every unrecognized shape is
returned unchanged, but an input with surrounding whitespace is
stripped first — a relative path with a leading blank comes back
changed. -/
theorem C10_strip_changes_input :
    normalize_workspace_source_path " app" = "app" ∧ " app" ≠ "app" := by
  constructor
  · rfl
  · decide

/-- Witness for C10 at a concrete shorthand-root path. -/
theorem C10_normalize_total_idem_witness :
    normalize_workspace_source_path "/Users/u/app" = "/Workspace" ++ "/Users/u/app" :=
  C10_normalize_total_idem.2.2.1 "/Users/u/app" (by decide) (by decide) (by decide)

/-! ## Handshake, log-session and tool-layer theorems -/

/-- C6, amended: for every response whose status line does not contain
`" 101 "`, the handshake validation raises an error carrying exactly the
status line behind a fixed message — the response body read so far is
not included (see the counterexample theorem). -/
theorem C6_handshake_error_carries_status :
    ∀ response : String,
      infixOfL " 101 ".data (status_line_of response).data = false →
      handshake_check response
        = .error ("WebSocket upgrade failed: " ++ status_line_of response) := by
  intro r h
  unfold handshake_check
  simp [h]

/-- Witness for C6 (amended) at a concrete 403 response. -/
theorem C6_handshake_error_carries_status_witness :
    handshake_check "HTTP/1.1 403 Forbidden\r\nServer: x\r\n\r\ndenied body1"
      = .error ("WebSocket upgrade failed: "
          ++ status_line_of "HTTP/1.1 403 Forbidden\r\nServer: x\r\n\r\ndenied body1") :=
  C6_handshake_error_carries_status
    "HTTP/1.1 403 Forbidden\r\nServer: x\r\n\r\ndenied body1" (by decide)

/-- C6 counterexample: the error raised for a non-101 response carries
the status line only — the body bytes read so far (`denied body1`) do
not occur anywhere in the raised message, although the claim says the
error carries them. -/
theorem C6_error_lacks_body :
    handshake_check "HTTP/1.1 403 Forbidden\r\nServer: x\r\n\r\ndenied body1"
      = .error "WebSocket upgrade failed: HTTP/1.1 403 Forbidden"
    ∧ infixOfL "denied body1".data
        "WebSocket upgrade failed: HTTP/1.1 403 Forbidden".data = false := by
  constructor
  · rfl
  · decide

/-- Once 500 entries are accumulated the loop stops without reading. -/
theorem logLoop_stop (parse : String → Option LogEntry)
    (frames : List FrameIn) (lines : List String)
    (h : 500 ≤ lines.length) : logLoop parse frames lines = lines := by
  cases frames with
  | nil => rfl
  | cons f rest => unfold logLoop; rw [if_pos h]

/-- C9: a text frame whose payload is non-empty but all-whitespace (so
in particular not the NUL sentinel) contributes nothing: the session
accumulates exactly what it would accumulate without that frame, so
such payloads never appear in the returned log string. -/
theorem C9_whitespace_frames_dropped :
    ∀ (parse : String → Option LogEntry) (p : String) (rest : List FrameIn)
      (lines : List String),
      ¬ p = "" → p.data.all isPySpace = true →
      logLoop parse (.frame 1 p :: rest) lines = logLoop parse rest lines := by
  intro parse p rest lines hne hws
  by_cases h5 : 500 ≤ lines.length
  · rw [logLoop_stop parse rest lines h5]
    unfold logLoop
    rw [if_pos h5]
  · have hnul : ¬ p = "\x00" := by
      intro h
      rw [h] at hws
      exact absurd hws (by decide)
    conv_lhs => unfold logLoop
    rw [if_neg h5]
    simp [hnul, hws]

/-- Witness for C9: a two-blank payload between two sessions changes
nothing. -/
theorem C9_whitespace_frames_dropped_witness :
    logLoop parse_none [.frame 1 "  ", .frame 1 "boot ok"] []
      = logLoop parse_none [.frame 1 "boot ok"] [] :=
  C9_whitespace_frames_dropped parse_none "  " [.frame 1 "boot ok"] []
    (by decide) (by decide)

/-- C7: creation is idempotent — when the name already exists the call
returns `created := false` and leaves the workspace unchanged (with no
source path, and likewise with a clear source path whose deploy
succeeds; calling twice therefore yields `created := false` both
times), while the first call for an absent name with an unambiguous
`/Workspace/...` path appends the app and returns `created := true`. -/
theorem C7_create_or_update_idempotent :
    (∀ (name : String) (env : COUEnv), name ∈ env.world →
        create_or_update_app name none none env
          = .ok ({ created := false, deployment := none,
                   deployed_source_code_path := none }, env.world))
    ∧ (∀ (name q : String) (mode : Option String) (env : COUEnv)
        (dd : DeploymentDict),
        name ∈ env.world →
        ¬ pyStrip q = "" →
        is_clear_workspace_path (pyStrip q) = true →
        deploy_app name (pyStrip q) mode env.deployEnv = .ok dd →
        ∃ res : COUResult, create_or_update_app name (some q) mode env
            = .ok (res, env.world) ∧ res.created = false)
    ∧ (∀ (name q : String) (mode : Option String) (env : COUEnv)
        (dd : DeploymentDict),
        ¬ name ∈ env.world →
        startsWithL (pyStrip q) "/Workspace/" = true →
        deploy_app name (pyStrip q) mode env.deployEnv = .ok dd →
        ∃ res : COUResult, create_or_update_app name (some q) mode env
            = .ok (res, env.world ++ [name]) ∧ res.created = true) := by
  refine ⟨?_, ?_, ?_⟩
  · intro name env h
    simp [create_or_update_app, stripToNone, h]
  · intro name q mode env dd hmem hne hclear hdep
    have hsrc : stripToNone (some q) = some (pyStrip q) := by
      simp [stripToNone, hne]
    refine ⟨{ created := false, deployment := some dd,
              deployed_source_code_path :=
                if truthyStr dd.source_code_path = true then dd.source_code_path
                else none }, ?_, rfl⟩
    simp [create_or_update_app, hsrc, hclear, hdep, hmem]
  · intro name q mode env dd hmem hws hdep
    have hqd := data_head_of_startsWith (pyStrip q) "/Workspace/" '/'
      "Workspace/".data rfl hws
    have hne : ¬ pyStrip q = "" := by
      obtain ⟨r, hr⟩ := hqd
      intro h
      rw [h] at hr
      exact absurd hr (by simp)
    have hclear : is_clear_workspace_path (pyStrip q) = true := by
      unfold is_clear_workspace_path
      rw [if_neg hne]
      simp [hws]
    have hsrc : stripToNone (some q) = some (pyStrip q) := by
      simp [stripToNone, hne]
    refine ⟨{ created := true, deployment := some dd,
              deployed_source_code_path :=
                if truthyStr dd.source_code_path = true then dd.source_code_path
                else none }, ?_, rfl⟩
    simp [create_or_update_app, hsrc, hclear, hdep, hmem]

/-- Witness for C7: looking up the existing `app1` with no source path
returns `created := false` and the unchanged workspace. -/
theorem C7_create_or_update_idempotent_witness :
    create_or_update_app "app1" none none envC7
      = .ok ({ created := false, deployment := none,
               deployed_source_code_path := none }, ["app1"]) :=
  C7_create_or_update_idempotent.1 "app1" envC7 (by decide)

/-- C8: `create_or_update_app` raises a `ValueError` exactly when the
(stripped) source path is absent for a name with no existing app, or a
supplied source path fails the workspace-prefix check — and the
unclear-path message names the four recognized prefixes. -/
theorem C8_validation_exactly :
    (∀ (name : String) (src mode : Option String) (env : COUEnv),
      (∃ m, create_or_update_app name src mode env = .error (.validation m)) ↔
        ((¬ name ∈ env.world ∧ stripToNone src = none) ∨
         (∃ q, stripToNone src = some q ∧ is_clear_workspace_path q = false)))
    ∧ (∀ (name : String) (src mode : Option String) (env : COUEnv) (q : String),
        stripToNone src = some q → is_clear_workspace_path q = false →
        create_or_update_app name src mode env
          = .error (.validation unclear_path_msg))
    ∧ (infixOfL "/Workspace/".data unclear_path_msg.data = true
       ∧ infixOfL "/Users/".data unclear_path_msg.data = true
       ∧ infixOfL "/Shared/".data unclear_path_msg.data = true
       ∧ infixOfL "/Repos/".data unclear_path_msg.data = true) := by
  refine ⟨?_, ?_, by decide⟩
  · intro name src mode env
    constructor
    · rintro ⟨m, hm⟩
      cases hsrc : stripToNone src with
      | none =>
        simp only [create_or_update_app, hsrc] at hm
        by_cases hmem : name ∈ env.world
        · simp [hmem] at hm
        · exact Or.inl ⟨hmem, rfl⟩
      | some q =>
        simp only [create_or_update_app, hsrc] at hm
        by_cases hclear : is_clear_workspace_path q = false
        · exact Or.inr ⟨q, rfl, hclear⟩
        · rw [if_neg hclear] at hm
          cases hdep : deploy_app name q mode env.deployEnv with
          | error e => rw [hdep] at hm; simp at hm
          | ok dd => rw [hdep] at hm; simp at hm
    · rintro (⟨hmem, hsrc⟩ | ⟨q, hsrc, hclear⟩)
      · exact ⟨missing_path_msg, by simp [create_or_update_app, hsrc, hmem]⟩
      · exact ⟨unclear_path_msg, by simp [create_or_update_app, hsrc, hclear]⟩
  · intro name src mode env q hsrc hclear
    simp [create_or_update_app, hsrc, hclear]

/-- Witness for C8: a relative path raises the unclear-path
`ValueError`. -/
theorem C8_validation_exactly_witness :
    create_or_update_app "app2" (some "relative/path") none envC7
      = .error (.validation unclear_path_msg) :=
  C8_validation_exactly.2.1 "app2" (some "relative/path") none envC7
    "relative/path" (by decide) (by decide)
